import Mathlib

/-!
Verification of the kaamwale3-backend job dispatch core.

The definitions below are a shallow embedding of the dispatch engine in
src/server.js and of the candidate selection function findNearbyWorkers
(services/matchingService, exported in src/cleanup.js lines 40-84).
JavaScript numbers that carry coordinates and distances are modelled as
rationals; timestamps as naturals; Mongo documents as Lean structures;
the process-local JS Maps (connectedWorkers, trackingJobs,
pendingJobTimeouts) as association lists with JS Map semantics.

The distance helper getDistanceFromLatLonInKm lives in utils/distance.js,
which is not part of the sources here; every definition that needs it is
therefore parametrised by an arbitrary distance function, exactly as the
source code treats it as an opaque import.
-/

namespace Kaamwale

/-- Job status values used by the dispatch core in server.js:
"pending", "accepted", "cancelled". -/
inductive JobStatus where
  | pending
  | accepted
  | cancelled
  deriving DecidableEq, Repr

/-- Snapshot of worker data stored in acceptedWorker at acceptance time
(server.js lines 1357-1375). Only the identity fields matter to the
dispatch core. -/
structure WorkerSnapshot where
  wid : String
  name : String
  phone : String
  deriving DecidableEq, Repr

/-- A job document, models/Jobs.js restricted to the fields the dispatch
core reads or writes. Optional Mongo fields are Option. -/
structure Job where
  jobId : String
  title : String
  workerType : Option String
  lat : Rat
  lon : Rat
  status : JobStatus
  acceptedBy : Option String
  acceptedWorker : Option WorkerSnapshot
  acceptedAt : Option Nat
  declinedBy : List String
  paymentStatus : Option String
  attendanceStatus : Option String
  deriving DecidableEq, Repr

/-- An entry of the connectedWorkers map (server.js lines 103, 428-436).
A lat or lon of 0 stands for a missing coordinate, as in the source,
which writes lat || 0. The isAvailable flag is absent (none) on entries
created by the session re-association path (server.js lines 345-352). -/
structure RegistryEntry where
  name : String
  phone : String
  workerType : Option String
  lat : Rat
  lon : Rat
  isAvailable : Option Bool
  deriving DecidableEq, Repr

/-- An element of the list returned by findNearbyWorkers
(cleanup.js lines 65-73). -/
structure NearbyWorker where
  socketId : String
  name : String
  phone : String
  workerType : Option String
  lat : Rat
  lon : Rat
  distance : Rat
  deriving DecidableEq, Repr

/-- JavaScript Math.round: round half toward positive infinity. -/
def jsRound (x : Rat) : Int := Int.floor (x + 1 / 2)

/-- Math.round(distKm * 10) / 10, the rounding to one decimal applied at
cleanup.js line 72. -/
def round1 (x : Rat) : Rat := ((jsRound (x * 10) : Int) : Rat) / 10

/-- Shallow embedding of findNearbyWorkers (cleanup.js lines 40-84).
The argument dist stands for the imported getDistanceFromLatLonInKm
(utils/distance.js, not among the sources). The jobType argument mirrors
jobLocation.workerType, which the source receives but never reads.
Entries with falsy lat, lon or name are skipped (line 47), entries with
isAvailable strictly equal to false are skipped (line 50), entries
farther than 5 km are dropped (line 64), survivors are sorted by
ascending rounded distance (line 83). -/
def findNearbyWorkers (dist : Rat → Rat → Rat → Rat → Rat)
    (jobLat jobLon : Rat) (jobType : Option String)
    (workers : List (String × RegistryEntry)) : List NearbyWorker :=
  let collected := workers.filterMap fun p =>
    let w := p.2
    if w.lat = 0 ∨ w.lon = 0 ∨ w.name = "" then none
    else if w.isAvailable = some false then none
    else
      let d := dist jobLat jobLon w.lat w.lon
      if d ≤ 5 then
        some { socketId := p.1, name := w.name, phone := w.phone,
               workerType := w.workerType, lat := w.lat, lon := w.lon,
               distance := round1 d }
      else none
  collected.insertionSort (fun a b => a.distance ≤ b.distance)

/-- A record of the durable User collection as read by the dispatch loop:
User.findOne({phone}) followed by a check of isAvailable
(server.js lines 239-243). -/
structure UserRec where
  phone : String
  isAvailable : Bool
  deriving DecidableEq, Repr

/-- The availability check of server.js lines 239-243: the worker is
skipped when no User record exists or its isAvailable flag is false. -/
def userAvailable (users : List UserRec) (phone : String) : Bool :=
  match users.find? (fun u => u.phone == phone) with
  | some u => u.isAvailable
  | none => false

/-- Predicate of the Mongo query {acceptedBy: name, paymentStatus: {$ne: "Paid"}}
used at server.js lines 246-249 and 1344-1347. A missing paymentStatus
matches $ne. -/
def isUnpaidFor (name : String) (j : Job) : Bool :=
  j.acceptedBy == some name && j.paymentStatus != some "Paid"

/-- Job.findOne for the unpaid-job query (server.js lines 246-249, 1344-1347). -/
def findUnpaidJob (db : List Job) (name : String) : Option Job :=
  db.find? (isUnpaidFor name)

/-- The selection loop of offerJobToNextWorker (server.js lines 232-259):
walk the distance-sorted candidates, skipping workers whose name is in
declinedBy, workers unavailable in the User collection, and workers
holding an unpaid job; return the first survivor. -/
def chooseWorker (declined : List String) (users : List UserRec)
    (db : List Job) : List NearbyWorker → Option NearbyWorker
  | [] => none
  | w :: rest =>
    if declined.contains w.name then chooseWorker declined users db rest
    else if !(userAvailable users w.phone) then chooseWorker declined users db rest
    else if (findUnpaidJob db w.name).isSome then chooseWorker declined users db rest
    else some w

/-- The worker a dispatch round would push the offer to: findNearbyWorkers
on the current registry followed by the selection loop
(server.js lines 224-259). -/
def offerTarget (job : Job) (registry : List (String × RegistryEntry))
    (users : List UserRec) (db : List Job)
    (dist : Rat → Rat → Rat → Rat → Rat) : Option NearbyWorker :=
  chooseWorker job.declinedBy users db
    (findNearbyWorkers dist job.lat job.lon job.workerType registry)

/-- JS Map.get on a map modelled as an association list in insertion
order. -/
def mapGet (m : List (String × Nat)) (k : String) : Option Nat :=
  (m.find? (fun e => e.1 == k)).map Prod.snd

/-- JS Map.set: replace the value in place when the key is present,
append otherwise. -/
def mapSet (m : List (String × Nat)) (k : String) (v : Nat) :
    List (String × Nat) :=
  if (m.find? (fun e => e.1 == k)).isSome then
    m.map (fun e => if e.1 == k then (k, v) else e)
  else m ++ [(k, v)]

/-- JS Map.delete. -/
def mapDelete (m : List (String × Nat)) (k : String) : List (String × Nat) :=
  m.filter (fun e => e.1 != k)

/-- The whole server state touched by the dispatch core: the durable Job
collection, the pendingJobTimeouts map (jobId to timer handle), the set
of timer callbacks actually scheduled (pairs of jobId and handle), and
the trackingJobs map (jobId to expiry timestamp). The armed component is
what clearTimeout acts on; pendingJobTimeouts is only the bookkeeping
map. -/
structure ServerState where
  jobs : List Job
  timeouts : List (String × Nat)
  armed : List (String × Nat)
  tracking : List (String × Nat)
  deriving DecidableEq, Repr

/-- The timer-clearing step used at server.js lines 218-221 (round entry)
and 1456-1460 (acceptance): when pendingJobTimeouts holds a handle for
the job, clearTimeout that handle and delete the map entry. -/
def clearTimerPair (timeouts armed : List (String × Nat)) (k : String) :
    List (String × Nat) × List (String × Nat) :=
  match mapGet timeouts k with
  | some tid => (mapDelete timeouts k, armed.filter (fun e => e.2 != tid))
  | none => (timeouts, armed)

/-- Arming a timer: setTimeout schedules a fresh callback and its handle
is stored in pendingJobTimeouts (server.js lines 279 and 308). -/
def armTimerPair (timeouts armed : List (String × Nat)) (k : String)
    (tid : Nat) : List (String × Nat) × List (String × Nat) :=
  (mapSet timeouts k tid, armed ++ [(k, tid)])

/-- Timer effect of one dispatch round for job k when no other round
for the same job interleaves between its two phases: clear any previous
timer at entry (lines 218-221), then arm a fresh one, either the 30 s
retry timer (line 279) or the 60 s offer timer (line 308). In the
source these two phases are separated by the awaited reads
User.findOne and Job.findOne (lines 239 and 246); racedRounds below
models the schedule where another round runs inside that window. -/
def roundArmTimers (timeouts armed : List (String × Nat)) (k : String)
    (tid : Nat) : List (String × Nat) × List (String × Nat) :=
  let p := clearTimerPair timeouts armed k
  armTimerPair p.1 p.2 k tid

/-- Two dispatch rounds for the same job k racing on the event loop.
Rounds start concurrently from independent entry points: the decline
route of two different workers (server.js lines 1515-1517), the post
route (line 1317), or a fired timer callback (lines 296-306). Each
round is clear at entry (lines 218-221) then arm (line 279 or 308),
with the awaited reads of lines 239 and 246 in between; on this
schedule both rounds pass their clears before either arms, then round A
arms handle tidA and round B arms handle tidB, the second
pendingJobTimeouts.set overwriting the stored handle while the first
callback stays scheduled. -/
def racedRounds (timeouts armed : List (String × Nat)) (k : String)
    (tidA tidB : Nat) : List (String × Nat) × List (String × Nat) :=
  let p1 := clearTimerPair timeouts armed k
  let p2 := clearTimerPair p1.1 p1.2 k
  let p3 := armTimerPair p2.1 p2.2 k tidA
  armTimerPair p3.1 p3.2 k tidB

/-- Job.findById / the id part of findOneAndUpdate. -/
def findJob (jobs : List Job) (jobId : String) : Option Job :=
  jobs.find? (fun j => j.jobId == jobId)

/-- Update the first document matching the predicate, as
findOneAndUpdate does. -/
def updateFirst (p : Job → Bool) (f : Job → Job) : List Job → List Job
  | [] => []
  | j :: t => if p j then f j :: t else j :: updateFirst p f t

/-- The $set document of the accept transition (server.js line 1380):
status accepted, acceptedBy, acceptedWorker and acceptedAt written in
one atomic update. -/
def acceptedDoc (j : Job) (w : String) (snap : Option WorkerSnapshot)
    (now : Nat) : Job :=
  { j with status := JobStatus.accepted, acceptedBy := some w,
           acceptedWorker := snap, acceptedAt := some now }

/-- The conditional transition of the accept route (server.js lines
1377-1382): findOneAndUpdate({_id, status: "pending"}, {$set: {...}}),
applied to a single document. Returns none (Conflict) when the status is
no longer pending, leaving the document untouched. -/
def acceptTransition (j : Job) (w : String) (snap : Option WorkerSnapshot)
    (now : Nat) : Option Job :=
  if j.status = JobStatus.pending then some (acceptedDoc j w snap now)
  else none

/-- The same conditional transition over the whole collection. -/
def conditionalAccept (jobs : List Job) (jobId w : String)
    (snap : Option WorkerSnapshot) (now : Nat) :
    Option Job × List Job :=
  let p := fun j : Job => j.jobId == jobId && j.status == JobStatus.pending
  match jobs.find? p with
  | some j =>
    let j2 := acceptedDoc j w snap now
    (some j2, updateFirst p (fun _ => j2) jobs)
  | none => (none, jobs)

/-- Tracking window expiry written at acceptance, server.js line 1465:
Date.now() + TRACK_MINUTES * 40 * 1000, with TRACK_MINUTES defaulting
to 10. -/
def trackingExpiryMs (now trackMinutes : Nat) : Nat :=
  now + trackMinutes * 40 * 1000

/-- Expiry the surrounding comment and log line promise, ten minutes in
milliseconds: now + trackMinutes * 60 * 1000. Modelled from the spec:
tracking window of trackMinutes minutes after acceptance. -/
def specTrackingExpiryMs (now trackMinutes : Nat) : Nat :=
  now + trackMinutes * 60 * 1000

/-- Outcome of the accept route. -/
inductive AcceptOutcome where
  | unpaidRejected (blocking : Job)
  | conflict
  | accepted (updated : Job)
  deriving DecidableEq, Repr

/-- The accept route, server.js lines 1335-1475: first the synchronous
unpaid-job recheck (lines 1344-1355, rejected before the transition is
reached), then the conditional transition (lines 1377-1387), then on
success the cancellation of the job timer (lines 1456-1460) and the
opening of the tracking window (line 1465). -/
def acceptEndpoint (s : ServerState) (jobId w : String)
    (snap : Option WorkerSnapshot) (now trackMinutes : Nat) :
    AcceptOutcome × ServerState :=
  match findUnpaidJob s.jobs w with
  | some u => (AcceptOutcome.unpaidRejected u, s)
  | none =>
    match conditionalAccept s.jobs jobId w snap now with
    | (some j2, jobs2) =>
      let p := clearTimerPair s.timeouts s.armed jobId
      (AcceptOutcome.accepted j2,
       { jobs := jobs2, timeouts := p.1, armed := p.2,
         tracking := mapSet s.tracking jobId (trackingExpiryMs now trackMinutes) })
    | (none, _) => (AcceptOutcome.conflict, s)

/-- The body of the decline route acting on the fetched document and the
trackingJobs map (server.js lines 1484-1508): idempotently push the
worker name onto declinedBy (lines 1492-1494); when this worker is the
accepted one on an accepted job, reset the dispatch fields and delete
the tracking entry (lines 1497-1506). -/
def declineStep (j : Job) (tracking : List (String × Nat)) (w : String) :
    Job × List (String × Nat) :=
  let j1 := if j.declinedBy.contains w then j
            else { j with declinedBy := j.declinedBy ++ [w] }
  if j1.acceptedBy = some w ∧ j1.status = JobStatus.accepted then
    ({ j1 with status := JobStatus.pending, acceptedBy := none,
               acceptedWorker := none, acceptedAt := none },
     mapDelete tracking j.jobId)
  else (j1, tracking)

/-- Effect of the cancel route on the job document, server.js line
2319: only the status is written; acceptedBy, acceptedWorker and
acceptedAt are left as they were. -/
def cancelJobDoc (j : Job) : Job :=
  { j with status := JobStatus.cancelled }

/-- The cancel route, server.js lines 2267-2375, restricted to its
effect on the dispatch state: Job.findById, then job.status =
"cancelled" and save (lines 2318-2320). The route touches neither
pendingJobTimeouts nor trackingJobs. -/
def cancelEndpoint (s : ServerState) (jobId : String) : ServerState :=
  match findJob s.jobs jobId with
  | some _ =>
    { s with jobs := updateFirst (fun j => j.jobId == jobId) cancelJobDoc s.jobs }
  | none => s

/-- Guard run by both timer callbacks before starting a new round
(server.js lines 269-271 and 298-300): the refetched job must still be
pending. -/
def timerFireGuard (j : Job) : Bool :=
  j.status == JobStatus.pending

/-- One timer-driven dispatch round with the interleaving made explicit.
When a timer fires, the callback refetches the job and proceeds only if
the status it reads, statusAtCheck, is pending (lines 298-301); the
round then awaits User.findOne and Job.findOne (lines 239, 246) before
emitting the offer (line 288), and a cancellation can commit during
those awaits, so the status at emission time, statusAtPush, may differ.
Neither offerJobToNextWorker nor the emit consults statusAtPush; the
push decision is exactly offerTarget on the refetched snapshot. -/
def timerRound (statusAtCheck statusAtPush : JobStatus) (snapshot : Job)
    (registry : List (String × RegistryEntry)) (users : List UserRec)
    (db : List Job) (dist : Rat → Rat → Rat → Rat → Rat) :
    Option NearbyWorker :=
  if statusAtCheck = JobStatus.pending then
    offerTarget snapshot registry users db dist
  else none

/-- Falsy test JavaScript applies to a request number field: absent or
zero (the check !lat at server.js line 1268). -/
def falsyNum (o : Option Rat) : Bool :=
  match o with
  | none => true
  | some x => x == 0

/-- Fields of a job posting request read at server.js line 1265. -/
structure PostRequest where
  title : String
  workerType : Option String
  lat : Option Rat
  lon : Option Rat
  deriving DecidableEq, Repr

/-- Outcome of the job posting route. -/
inductive PostOutcome where
  | missingFields
  | insufficientBalance
  | posted (j : Job)
  deriving DecidableEq, Repr

/-- The post route, server.js lines 1263-1305: reject when title, lat or
lon is falsy, before any wallet access (line 1268); then require a
balance of at least 200 (line 1277); then deduct the posting fee of 25
and create the pending job with an empty declinedBy. The returned
rational is the wallet balance after the call. -/
def postJob (req : PostRequest) (walletBalance : Rat) (newId : String) :
    PostOutcome × Rat :=
  if req.title = "" ∨ falsyNum req.lat ∨ falsyNum req.lon then
    (PostOutcome.missingFields, walletBalance)
  else if walletBalance < 200 then
    (PostOutcome.insufficientBalance, walletBalance)
  else
    (PostOutcome.posted
      { jobId := newId, title := req.title, workerType := req.workerType,
        lat := req.lat.getD 0, lon := req.lon.getD 0,
        status := JobStatus.pending, acceptedBy := none,
        acceptedWorker := none, acceptedAt := none, declinedBy := [],
        paymentStatus := none, attendanceStatus := none },
     walletBalance - 25)

/-- The payment route effect on a job document (server.js lines
1674-1696): payment is allowed only for a Present worker and sets
paymentStatus to "Paid". -/
def payJobDoc (j : Job) : Job :=
  if j.attendanceStatus = some "Present" then
    { j with paymentStatus := some "Paid" }
  else j

/-- The four document-level operations the routes apply to one job. -/
inductive JobOp where
  | accept (w : String) (snap : Option WorkerSnapshot) (now : Nat)
  | decline (w : String)
  | cancel
  | pay
  deriving DecidableEq, Repr

/-- Apply one document-level operation; a conflicting accept leaves the
document unchanged, as the failed findOneAndUpdate does. -/
def applyJobOp (j : Job) : JobOp → Job
  | JobOp.accept w snap now => (acceptTransition j w snap now).getD j
  | JobOp.decline w => (declineStep j [] w).1
  | JobOp.cancel => cancelJobDoc j
  | JobOp.pay => payJobDoc j

/-- Distance oracle for the concrete scenarios. The real
getDistanceFromLatLonInKm is outside the sources, so the scenarios fix
the stipulated distances directly: each scenario worker stores its
distance from the job in its lat field and the oracle reads it back. -/
def scDist : Rat → Rat → Rat → Rat → Rat := fun _ _ wlat _ => wlat

/-- Scenario worker W1: a mason 3 km from the job, live and available. -/
def w1Entry : RegistryEntry :=
  { name := "W1", phone := "111", workerType := some "mason",
    lat := 3, lon := 50, isAvailable := some true }

/-- Scenario worker W2: a plumber 1 km from the job, live and available. -/
def w2Entry : RegistryEntry :=
  { name := "W2", phone := "222", workerType := some "plumber",
    lat := 1, lon := 50, isAvailable := some true }

/-- Scenario registry holding W1 and W2. -/
def scRegistry : List (String × RegistryEntry) :=
  [("s1", w1Entry), ("s2", w2Entry)]

/-- Scenario User collection: both workers available. -/
def scUsers : List UserRec :=
  [{ phone := "111", isAvailable := true },
   { phone := "222", isAvailable := true }]

/-- Scenario job at (18.52, 73.85) requiring worker type mason. -/
def scJob : Job :=
  { jobId := "J1", title := "Wall work", workerType := some "mason",
    lat := 18.52, lon := 73.85, status := JobStatus.pending,
    acceptedBy := none, acceptedWorker := none, acceptedAt := none,
    declinedBy := [], paymentStatus := none, attendanceStatus := none }

/-- The candidate entry findNearbyWorkers produces for scenario worker
W2. -/
def scW2Nearby : NearbyWorker :=
  { socketId := "s2", name := "W2", phone := "222",
    workerType := some "plumber", lat := 1, lon := 50, distance := 1 }

/-- The candidate entry findNearbyWorkers produces for scenario worker
W1. -/
def scW1Nearby : NearbyWorker :=
  { socketId := "s1", name := "W1", phone := "111",
    workerType := some "mason", lat := 3, lon := 50, distance := 3 }

/-- A plain pending job with integer coordinates, used as concrete input
for witnesses. -/
def pJob : Job :=
  { jobId := "J1", title := "Dig", workerType := none, lat := 18, lon := 73,
    status := JobStatus.pending, acceptedBy := none, acceptedWorker := none,
    acceptedAt := none, declinedBy := [], paymentStatus := none,
    attendanceStatus := none }

/-- The job reached by accepting pJob as W2 and then cancelling it, the
state the cancel route leaves behind for an accepted job. -/
def acceptedThenCancelled : Job :=
  cancelJobDoc ((acceptTransition pJob "W2" none 5).getD pJob)

/-- Build a server state from its four components. -/
def mkState (js : List Job) (tos ars trs : List (String × Nat)) : ServerState :=
  { jobs := js, timeouts := tos, armed := ars, tracking := trs }

/-- Concrete state for the cancellation claims: pJob accepted by W2,
with an armed 60 second offer timer (handle 7) and an open tracking
window (expiry 999) for it. -/
def c3State : ServerState :=
  mkState [acceptedDoc pJob "W2" none 5] [("J1", 7)] [("J1", 7)] [("J1", 999)]

/-- Well-formedness of the timer bookkeeping: the scheduled callbacks
are exactly the entries of pendingJobTimeouts, the map has one entry per
job id and timer handles are pairwise distinct (setTimeout never reuses
a live handle). -/
def timersWF (tos ars : List (String × Nat)) : Prop :=
  ars = tos ∧ (tos.map Prod.fst).Nodup ∧ (tos.map Prod.snd).Nodup

/-- An accepted and not yet paid job held by W2, used as the blocking
job in the one-unpaid-job-per-worker claims. -/
def unpaidJob : Job :=
  { jobId := "J0", title := "Lift", workerType := none, lat := 18, lon := 73,
    status := JobStatus.accepted, acceptedBy := some "W2",
    acceptedWorker := none, acceptedAt := some 1, declinedBy := [],
    paymentStatus := none, attendanceStatus := none }

/-- A posting request whose latitude is the real coordinate 0. -/
def badReq : PostRequest :=
  { title := "Dig", workerType := some "mason", lat := some 0, lon := some 73 }

/-!
Theorems. Helper lemmas come first, then one theorem per claim, with a
counterexample theorem for each corrected claim and a witness theorem
for each proved theorem that carries hypotheses.
-/

theorem declineStep_fields (j : Job) (tr : List (String × Nat)) (w : String) :
    ((declineStep j tr w).1.status = JobStatus.pending ∧
      (declineStep j tr w).1.acceptedBy = none) ∨
    ((declineStep j tr w).1.status = j.status ∧
      (declineStep j tr w).1.acceptedBy = j.acceptedBy) := by
  unfold declineStep
  by_cases hc : w ∈ j.declinedBy <;>
    by_cases hcc : j.acceptedBy = some w ∧ j.status = JobStatus.accepted <;>
    simp [hc, hcc]

theorem round1_intCast (n : ℤ) : round1 (n : Rat) = n := by
  have h : Int.floor ((n : Rat) * 10 + 1 / 2) = 10 * n := by
    rw [Int.floor_eq_iff]
    constructor
    · push_cast; linarith
    · push_cast; linarith
  unfold round1 jsRound
  rw [h]
  push_cast
  field_simp

theorem round1_one : round1 1 = 1 := by
  have h : ((1 : Rat)) = ((1 : ℤ) : Rat) := by norm_num
  rw [h, round1_intCast]

theorem round1_three : round1 3 = 3 := by
  have h : ((3 : Rat)) = ((3 : ℤ) : Rat) := by norm_num
  rw [h, round1_intCast]

theorem round1_le_of_le {d : Rat} (h : d ≤ 5) : round1 d ≤ 5 := by
  have hf : (Int.floor (d * 10 + 1 / 2) : Rat) ≤ d * 10 + 1 / 2 :=
    Int.floor_le _
  have hlt : Int.floor (d * 10 + 1 / 2) < 51 := by
    rw [Int.floor_lt]
    push_cast
    linarith
  have h50 : Int.floor (d * 10 + 1 / 2) ≤ 50 := by omega
  have h50q : ((Int.floor (d * 10 + 1 / 2) : Int) : Rat) ≤ 50 := by
    exact_mod_cast h50
  unfold round1 jsRound
  linarith

/-- The sorted candidate list findNearbyWorkers computes in the
scenario: W2 at 1 km first, W1 at 3 km second, both kept although the
job asks for a mason and W2 is a plumber. -/
theorem scenario_nearby_list :
    findNearbyWorkers scDist scJob.lat scJob.lon scJob.workerType scRegistry
      = [scW2Nearby, scW1Nearby] := by
  norm_num [findNearbyWorkers, scJob, scRegistry, scDist, w1Entry, w2Entry,
    scW1Nearby, scW2Nearby, round1_one, round1_three,
    List.insertionSort, List.orderedInsert]

/-- The scenario selection evaluated: W2, the nearer plumber, is the
worker the round would offer the job to, since no step of the selection
compares worker types. -/
theorem scenario_offer_is_w2 :
    offerTarget scJob scRegistry scUsers [] scDist = some scW2Nearby := by
  norm_num [offerTarget, findNearbyWorkers, scJob, scRegistry, scUsers, scDist,
    w1Entry, w2Entry, scW2Nearby, round1_one, round1_three,
    List.insertionSort, List.orderedInsert, chooseWorker, userAvailable,
    findUnpaidJob]
  decide

/-- C1, counterexample: the claimed invariant that acceptedBy is
non-null exactly when status is accepted fails on the code. Accepting
pJob and then cancelling it (the cancel route writes only status,
server.js line 2319) reaches a job with status cancelled whose
acceptedBy still holds the worker, refuting the if-and-only-if. -/
theorem c1_acceptedBy_iff_counterexample :
    acceptedThenCancelled.acceptedBy = some "W2" ∧
    acceptedThenCancelled.status = JobStatus.cancelled ∧
    ¬(acceptedThenCancelled.acceptedBy ≠ none ↔
      acceptedThenCancelled.status = JobStatus.accepted) := by
  refine ⟨by decide, by decide, ?_⟩
  intro h
  have h2 := h.mp (by decide)
  exact absurd h2 (by decide)

/-- C1, amended: for a pending job, of two serialized accept attempts
the first conditional transition succeeds, atomically setting status,
acceptedBy, acceptedWorker and acceptedAt, and the second observes a
Conflict (none) without mutating the job; hence at most one worker ever
holds the acceptance, and status accepted always comes with a non-null
acceptedBy, an implication every document operation of the routes
preserves. The converse direction of the claimed iff is dropped: a
cancelled job keeps its acceptedBy. -/
theorem c1_accept_race_and_invariant :
    (∀ (j : Job) (w1 w2 : String) (s1 s2 : Option WorkerSnapshot) (t1 t2 : Nat),
      j.status = JobStatus.pending →
      ∃ j2, acceptTransition j w1 s1 t1 = some j2 ∧
        j2.status = JobStatus.accepted ∧ j2.acceptedBy = some w1 ∧
        j2.acceptedWorker = s1 ∧ j2.acceptedAt = some t1 ∧
        acceptTransition j2 w2 s2 t2 = none) ∧
    (∀ (j : Job) (op : JobOp),
      (j.status = JobStatus.accepted → j.acceptedBy ≠ none) →
      ((applyJobOp j op).status = JobStatus.accepted →
        (applyJobOp j op).acceptedBy ≠ none)) := by
  constructor
  · intro j w1 w2 s1 s2 t1 t2 h
    refine ⟨acceptedDoc j w1 s1 t1, ?_, ?_, ?_, ?_, ?_, ?_⟩ <;>
      simp [acceptTransition, acceptedDoc, h]
  · intro j op h
    cases op with
    | accept w snap now =>
      by_cases hp : j.status = JobStatus.pending
      · simp [applyJobOp, acceptTransition, acceptedDoc, hp]
      · simpa [applyJobOp, acceptTransition, hp] using h
    | decline w =>
      intro hstat
      rcases declineStep_fields j [] w with ⟨h1, _⟩ | ⟨h1, h2⟩
      · rw [applyJobOp] at hstat
        rw [hstat] at h1
        exact absurd h1 (by decide)
      · rw [applyJobOp] at hstat ⊢
        rw [h2]
        exact h (h1 ▸ hstat)
    | cancel =>
      simp [applyJobOp, cancelJobDoc]
    | pay =>
      by_cases ha : j.attendanceStatus = some "Present"
      · simpa [applyJobOp, payJobDoc, ha] using h
      · simpa [applyJobOp, payJobDoc, ha] using h

/-- C1, witness: the race theorem and the invariant preservation applied
to the concrete pending job pJob. -/
theorem c1_witness :
    (∃ j2, acceptTransition pJob "W1" none 3 = some j2 ∧
      j2.status = JobStatus.accepted ∧ j2.acceptedBy = some "W1" ∧
      j2.acceptedWorker = none ∧ j2.acceptedAt = some 3 ∧
      acceptTransition j2 "W2" none 4 = none) ∧
    ((applyJobOp pJob (JobOp.cancel)).status = JobStatus.accepted →
      (applyJobOp pJob (JobOp.cancel)).acceptedBy ≠ none) :=
  ⟨c1_accept_race_and_invariant.1 pJob "W1" "W2" none none 3 4 (by decide),
   c1_accept_race_and_invariant.2 pJob JobOp.cancel (by intro h; exact absurd h (by decide))⟩

/-- C5, code bug: the tracking window armed at acceptance (server.js
line 1465) multiplies TRACK_MINUTES by 40 * 1000 instead of 60 * 1000,
so with the default TRACK_MINUTES = 10 the stored expiry is acceptance
time + 400000 ms, not the promised + 600000 ms; the accept route run on
a concrete pending job stores exactly that short expiry. -/
theorem c5_tracking_window_forty_not_sixty :
    trackingExpiryMs 0 10 = 400000 ∧
    specTrackingExpiryMs 0 10 = 600000 ∧
    trackingExpiryMs 0 10 ≠ specTrackingExpiryMs 0 10 ∧
    (acceptEndpoint (mkState [pJob] [] [] []) "J1" "W2" none 0 10).2.tracking
      = [("J1", 400000)] := by
  refine ⟨by decide, by decide, by decide, ?_⟩
  decide

/-- C2, counterexample: in the stipulated scenario (job requiring a
mason; W1 a mason at 3 km, W2 a plumber at 1 km, both live and
available), the selection offers the job to W2, not to W1: candidate
selection never compares worker types, refuting the claim that only W1
receives the offer. -/
theorem c2_type_filter_counterexample :
    offerTarget scJob scRegistry scUsers [] scDist = some scW2Nearby ∧
    scW2Nearby.workerType = some "plumber" ∧
    scJob.workerType = some "mason" ∧
    scW2Nearby.name ≠ "W1" := by
  refine ⟨scenario_offer_is_w2, by decide, ?_, by decide⟩
  norm_num [scJob]

/-- C2, amended: candidate selection discards live registry entries with
missing coordinates or name or with an availability flag of false, and
every entry beyond the 5 km radius, and sorts survivors by ascending
rounded distance; it applies no worker-type filter at all (its result
does not depend on the requested type), so in the scenario the nearer
plumber W2 receives the offer instead of the mason W1. -/
theorem c2_selection_radius_sort_no_type_filter :
    (∀ (dist : Rat → Rat → Rat → Rat → Rat) (la lo : Rat)
       (t1 t2 : Option String) (reg : List (String × RegistryEntry)),
        findNearbyWorkers dist la lo t1 reg = findNearbyWorkers dist la lo t2 reg) ∧
    (∀ (dist : Rat → Rat → Rat → Rat → Rat) (la lo : Rat)
       (t : Option String) (reg : List (String × RegistryEntry)),
        (∀ n ∈ findNearbyWorkers dist la lo t reg, n.distance ≤ 5) ∧
        List.Sorted (fun a b : NearbyWorker => a.distance ≤ b.distance)
          (findNearbyWorkers dist la lo t reg)) ∧
    offerTarget scJob scRegistry scUsers [] scDist = some scW2Nearby := by
  refine ⟨fun _ _ _ _ _ _ => rfl, ?_, scenario_offer_is_w2⟩
  intro dist la lo t reg
  constructor
  · intro n hn
    unfold findNearbyWorkers at hn
    have hmem := (List.perm_insertionSort
      (fun a b : NearbyWorker => a.distance ≤ b.distance) _).mem_iff.mp hn
    rw [List.mem_filterMap] at hmem
    obtain ⟨p, _, hpeq⟩ := hmem
    simp only [] at hpeq
    split_ifs at hpeq with h1 h2 h3 <;>
      first
        | exact Option.noConfusion hpeq
        | (injection hpeq with h4
           subst h4
           exact round1_le_of_le h3)
  · unfold findNearbyWorkers
    haveI : IsTotal NearbyWorker (fun a b => a.distance ≤ b.distance) :=
      ⟨fun a b => le_total _ _⟩
    haveI : IsTrans NearbyWorker (fun a b => a.distance ≤ b.distance) :=
      ⟨fun _ _ _ hab hbc => le_trans hab hbc⟩
    exact List.sorted_insertionSort _ _

/-- C2, witness: the amended selection properties evaluated on the
scenario: the result is type-independent, W2 and W1 are within radius,
and the sorted scenario list puts W2 first. -/
theorem c2_witness :
    findNearbyWorkers scDist scJob.lat scJob.lon (some "mason") scRegistry
      = findNearbyWorkers scDist scJob.lat scJob.lon none scRegistry ∧
    scW2Nearby.distance ≤ 5 ∧
    List.Sorted (fun a b : NearbyWorker => a.distance ≤ b.distance)
      (findNearbyWorkers scDist scJob.lat scJob.lon scJob.workerType scRegistry) :=
  ⟨c2_selection_radius_sort_no_type_filter.1 scDist scJob.lat scJob.lon
      (some "mason") none scRegistry,
   (c2_selection_radius_sort_no_type_filter.2.1 scDist scJob.lat scJob.lon
      scJob.workerType scRegistry).1 scW2Nearby
      (by rw [scenario_nearby_list]; exact List.mem_cons_self _ _),
   (c2_selection_radius_sort_no_type_filter.2.1 scDist scJob.lat scJob.lon
      scJob.workerType scRegistry).2⟩

theorem findJob_updateFirst (jid : String) (f : Job → Job)
    (hf : ∀ j, (f j).jobId = j.jobId) (jobs : List Job) :
    findJob (updateFirst (fun j => j.jobId == jid) f jobs) jid
      = Option.map f (findJob jobs jid) := by
  induction jobs with
  | nil => rfl
  | cons j t ih =>
    by_cases h : j.jobId = jid
    · have hb : (j.jobId == jid) = true := beq_iff_eq.mpr h
      have hb2 : ((f j).jobId == jid) = true := by
        rw [beq_iff_eq, hf j]; exact h
      simp [findJob, updateFirst, hb, hb2, List.find?_cons]
    · have hb : (j.jobId == jid) = false := by
        rw [beq_eq_false_iff_ne]; exact h
      simp only [findJob, updateFirst, hb, if_false, Bool.false_eq_true,
        List.find?_cons_of_neg, not_false_iff]
      simpa [findJob] using ih

/-- C3, counterexample: cancelling a job whose offer timer is armed and
whose tracking window is open leaves both the pendingJobTimeouts entry
and the trackingJobs entry in place, refuting parts (a) and (b) of the
claim; only the status write happens. -/
theorem c3_cancel_counterexample :
    (cancelEndpoint c3State "J1").timeouts = [("J1", 7)] ∧
    (cancelEndpoint c3State "J1").armed = [("J1", 7)] ∧
    (cancelEndpoint c3State "J1").tracking = [("J1", 999)] ∧
    mapGet (cancelEndpoint c3State "J1").timeouts "J1" = some 7 ∧
    mapGet (cancelEndpoint c3State "J1").tracking "J1" = some 999 ∧
    findJob (cancelEndpoint c3State "J1").jobs "J1"
      = some (cancelJobDoc (acceptedDoc pJob "W2" none 5)) := by
  decide

/-- C3, amended: a contractor cancellation at any time sets the job
status to the terminal value cancelled and makes any in-flight accept
attempt observe a transition conflict, and the armed timer callback
refuses to restart dispatch because its pending-status guard fails; but
the route clears neither the armed per-job timer nor the tracking
window: pendingJobTimeouts and trackingJobs are untouched. -/
theorem c3_cancel_effects (s : ServerState) (jid : String) :
    (cancelEndpoint s jid).timeouts = s.timeouts ∧
    (cancelEndpoint s jid).armed = s.armed ∧
    (cancelEndpoint s jid).tracking = s.tracking ∧
    (∀ j, findJob s.jobs jid = some j →
      findJob (cancelEndpoint s jid).jobs jid = some (cancelJobDoc j) ∧
      (cancelJobDoc j).status = JobStatus.cancelled ∧
      (∀ w snap t, acceptTransition (cancelJobDoc j) w snap t = none) ∧
      timerFireGuard (cancelJobDoc j) = false) := by
  unfold cancelEndpoint
  cases hfind : findJob s.jobs jid with
  | none =>
    refine ⟨rfl, rfl, rfl, ?_⟩
    intro j hj
    exact Option.noConfusion hj
  | some j0 =>
    refine ⟨rfl, rfl, rfl, ?_⟩
    intro j hj
    injection hj with hj2
    subst hj2
    refine ⟨?_, rfl, ?_, ?_⟩
    · show findJob (updateFirst (fun j => j.jobId == jid) cancelJobDoc s.jobs) jid
        = some (cancelJobDoc j0)
      rw [findJob_updateFirst jid cancelJobDoc (fun _ => rfl) s.jobs, hfind]
      rfl
    · intro w snap t
      simp [acceptTransition, cancelJobDoc]
    · simp [timerFireGuard, cancelJobDoc]

/-- C3, witness: the amended cancellation effects evaluated on the
concrete state c3State, whose job J1 is accepted with a live timer and
tracking window. -/
theorem c3_witness :
    (cancelEndpoint c3State "J1").timeouts = c3State.timeouts ∧
    findJob (cancelEndpoint c3State "J1").jobs "J1"
      = some (cancelJobDoc (acceptedDoc pJob "W2" none 5)) ∧
    acceptTransition (cancelJobDoc (acceptedDoc pJob "W2" none 5)) "W1" none 9 = none := by
  have h := c3_cancel_effects c3State "J1"
  have h2 := h.2.2.2 (acceptedDoc pJob "W2" none 5) (by decide)
  exact ⟨h.1, h2.1, h2.2.2.1 "W1" none 9⟩

/-- C4, counterexample: a dispatch round whose callback saw status
pending pushes the offer even when the status at emission time is
already cancelled, because nothing re-reads the status between the
callback guard and the push; in the concrete scenario the offer for the
now-cancelled job is pushed to W2. -/
theorem c4_stale_push_counterexample :
    timerRound JobStatus.pending JobStatus.cancelled scJob scRegistry
      scUsers [] scDist = some scW2Nearby ∧
    JobStatus.cancelled ≠ JobStatus.accepted := by
  constructor
  · rw [timerRound, if_pos rfl]
    exact scenario_offer_is_w2
  · decide

/-- C4, amended: the push decision of a round is entirely independent of
the job status at push time (the status is checked only when the timer
callback starts, before the awaited reads of the round), a pushed offer
implies the callback-time status was pending, and an accept arriving
after a cancellation still observes a conflict. -/
theorem c4_no_status_check_at_push :
    (∀ (s1 s2 s2b : JobStatus) (snapshot : Job)
       (reg : List (String × RegistryEntry)) (users : List UserRec)
       (db : List Job) (dist : Rat → Rat → Rat → Rat → Rat),
        timerRound s1 s2 snapshot reg users db dist
          = timerRound s1 s2b snapshot reg users db dist) ∧
    (∀ (s1 s2 : JobStatus) (snapshot : Job)
       (reg : List (String × RegistryEntry)) (users : List UserRec)
       (db : List Job) (dist : Rat → Rat → Rat → Rat → Rat) (w : NearbyWorker),
        timerRound s1 s2 snapshot reg users db dist = some w →
        s1 = JobStatus.pending) ∧
    (∀ (j : Job) (w : String) (snap : Option WorkerSnapshot) (t : Nat),
        j.status = JobStatus.cancelled → acceptTransition j w snap t = none) := by
  refine ⟨fun _ _ _ _ _ _ _ _ => rfl, ?_, ?_⟩
  · intro s1 s2 snapshot reg users db dist w h
    by_cases hp : s1 = JobStatus.pending
    · exact hp
    · rw [timerRound, if_neg hp] at h
      exact Option.noConfusion h
  · intro j w snap t h
    rw [acceptTransition, if_neg]
    rw [h]
    decide

/-- C4, witness: the amended statements applied to the concrete
scenario: status-at-push independence between cancelled and pending, the
pending guard recovered from the concrete push, and the conflict of an
accept on a concrete cancelled job. -/
theorem c4_witness :
    timerRound JobStatus.pending JobStatus.cancelled scJob scRegistry
        scUsers [] scDist
      = timerRound JobStatus.pending JobStatus.pending scJob scRegistry
        scUsers [] scDist ∧
    JobStatus.pending = JobStatus.pending ∧
    acceptTransition (cancelJobDoc pJob) "W1" none 2 = none :=
  ⟨c4_no_status_check_at_push.1 JobStatus.pending JobStatus.cancelled
      JobStatus.pending scJob scRegistry scUsers [] scDist,
   c4_no_status_check_at_push.2.1 JobStatus.pending JobStatus.cancelled
      scJob scRegistry scUsers [] scDist scW2Nearby
      (by rw [timerRound, if_pos rfl]; exact scenario_offer_is_w2),
   c4_no_status_check_at_push.2.2 (cancelJobDoc pJob) "W1" none 2 (by decide)⟩

theorem mapGet_mapDelete (m : List (String × Nat)) (k : String) :
    mapGet (mapDelete m k) k = none := by
  unfold mapGet mapDelete
  rw [List.find?_eq_none.mpr]
  · rfl
  · intro e he
    have h2 := (List.mem_filter.mp he).2
    simp only [bne_iff_ne, ne_eq] at h2
    simp [h2]

/-- C6: declining is idempotent on the whole affected state (declining
twice equals declining once), declinedBy stays duplicate-free and gains
the worker, and when the declining worker is the accepted one the
decline resets status to pending, clears acceptedBy, acceptedWorker and
acceptedAt, and removes the tracking window entry of the job. -/
theorem c6_decline_idempotent_and_reset (j : Job)
    (tr : List (String × Nat)) (w : String) :
    declineStep (declineStep j tr w).1 (declineStep j tr w).2 w
      = declineStep j tr w ∧
    (j.declinedBy.Nodup → (declineStep j tr w).1.declinedBy.Nodup) ∧
    w ∈ (declineStep j tr w).1.declinedBy ∧
    (j.acceptedBy = some w → j.status = JobStatus.accepted →
      (declineStep j tr w).1.status = JobStatus.pending ∧
      (declineStep j tr w).1.acceptedBy = none ∧
      (declineStep j tr w).1.acceptedWorker = none ∧
      (declineStep j tr w).1.acceptedAt = none ∧
      mapGet (declineStep j tr w).2 j.jobId = none) := by
  by_cases hc : w ∈ j.declinedBy <;>
    by_cases hcc : j.acceptedBy = some w ∧ j.status = JobStatus.accepted
  · refine ⟨?_, ?_, ?_, ?_⟩
    · simp [declineStep, hc, hcc]
    · intro h; simpa [declineStep, hc, hcc] using h
    · simp [declineStep, hc, hcc]
    · intro _ _
      simp [declineStep, hc, hcc, mapGet_mapDelete]
  · refine ⟨?_, ?_, ?_, ?_⟩
    · simp [declineStep, hc, hcc]
    · intro h; simpa [declineStep, hc, hcc] using h
    · simp [declineStep, hc, hcc]
    · intro h1 h2; exact absurd ⟨h1, h2⟩ hcc
  · refine ⟨?_, ?_, ?_, ?_⟩
    · simp [declineStep, hc, hcc, mapGet_mapDelete]
    · intro h; simp [declineStep, hc, hcc, List.nodup_append, h]
    · simp [declineStep, hc, hcc]
    · intro _ _
      simp [declineStep, hc, hcc, mapGet_mapDelete]
  · refine ⟨?_, ?_, ?_, ?_⟩
    · simp [declineStep, hc, hcc]
    · intro h; simp [declineStep, hc, hcc, List.nodup_append, h]
    · simp [declineStep, hc, hcc]
    · intro h1 h2; exact absurd ⟨h1, h2⟩ hcc

/-- C6, witness: declining the accepted job of W2 with an open tracking
window, evaluated concretely: idempotence, no duplicates, membership,
and the full reset with the tracking entry removed. -/
theorem c6_witness :
    declineStep (declineStep (acceptedDoc pJob "W2" none 5) [("J1", 999)] "W2").1
        (declineStep (acceptedDoc pJob "W2" none 5) [("J1", 999)] "W2").2 "W2"
      = declineStep (acceptedDoc pJob "W2" none 5) [("J1", 999)] "W2" ∧
    (declineStep (acceptedDoc pJob "W2" none 5) [("J1", 999)] "W2").1.declinedBy.Nodup ∧
    "W2" ∈ (declineStep (acceptedDoc pJob "W2" none 5) [("J1", 999)] "W2").1.declinedBy ∧
    (declineStep (acceptedDoc pJob "W2" none 5) [("J1", 999)] "W2").1.status
      = JobStatus.pending ∧
    mapGet (declineStep (acceptedDoc pJob "W2" none 5) [("J1", 999)] "W2").2
      (acceptedDoc pJob "W2" none 5).jobId = none := by
  have h := c6_decline_idempotent_and_reset (acceptedDoc pJob "W2" none 5)
    [("J1", 999)] "W2"
  have h4 := h.2.2.2 (by decide) (by decide)
  exact ⟨h.1, h.2.1 (by decide), h.2.2.1, h4.1, h4.2.2.2.2⟩

theorem chooseWorker_skips_declined (declined : List String)
    (users : List UserRec) (db : List Job) (ws : List NearbyWorker)
    (w : NearbyWorker) (h : chooseWorker declined users db ws = some w) :
    declined.contains w.name = false := by
  induction ws with
  | nil => exact Option.noConfusion h
  | cons a rest ih =>
    rw [chooseWorker] at h
    by_cases h1 : declined.contains a.name = true
    · rw [if_pos h1] at h
      exact ih h
    · rw [if_neg h1] at h
      by_cases h2 : (!(userAvailable users a.phone)) = true
      · rw [if_pos h2] at h
        exact ih h
      · rw [if_neg h2] at h
        by_cases h3 : (findUnpaidJob db a.name).isSome = true
        · rw [if_pos h3] at h
          exact ih h
        · rw [if_neg h3] at h
          injection h with h4
          subst h4
          exact Bool.eq_false_iff.mpr h1

theorem chooseWorker_skips_unpaid (declined : List String)
    (users : List UserRec) (db : List Job) (ws : List NearbyWorker)
    (w : NearbyWorker) (h : chooseWorker declined users db ws = some w) :
    findUnpaidJob db w.name = none := by
  induction ws with
  | nil => exact Option.noConfusion h
  | cons a rest ih =>
    rw [chooseWorker] at h
    by_cases h1 : declined.contains a.name = true
    · rw [if_pos h1] at h
      exact ih h
    · rw [if_neg h1] at h
      by_cases h2 : (!(userAvailable users a.phone)) = true
      · rw [if_pos h2] at h
        exact ih h
      · rw [if_neg h2] at h
        by_cases h3 : (findUnpaidJob db a.name).isSome = true
        · rw [if_pos h3] at h
          exact ih h
        · rw [if_neg h3] at h
          injection h with h4
          subst h4
          exact Option.not_isSome_iff_eq_none.mp h3

/-- C7: a worker recorded in declinedBy is never selected again: every
round recomputes the selection on the current declinedBy and the loop
skips declined names, and declinedBy membership is monotone under every
document operation, so once declined the worker is excluded from every
subsequent round. -/
theorem c7_declined_never_reoffered :
    (∀ (job : Job) (registry : List (String × RegistryEntry))
       (users : List UserRec) (db : List Job)
       (dist : Rat → Rat → Rat → Rat → Rat) (w : NearbyWorker),
        offerTarget job registry users db dist = some w →
        w.name ∉ job.declinedBy) ∧
    (∀ (j : Job) (op : JobOp) (x : String),
        x ∈ j.declinedBy → x ∈ (applyJobOp j op).declinedBy) := by
  constructor
  · intro job registry users db dist w h
    have h2 := chooseWorker_skips_declined job.declinedBy users db _ w h
    intro hmem
    rw [List.contains_eq_any_beq] at h2
    have h3 : job.declinedBy.any (w.name == ·) = true :=
      List.any_eq_true.mpr ⟨w.name, hmem, beq_iff_eq.mpr rfl⟩
    rw [h3] at h2
    exact Bool.noConfusion h2
  · intro j op x hx
    cases op with
    | accept w snap now =>
      by_cases hp : j.status = JobStatus.pending <;>
        simp [applyJobOp, acceptTransition, acceptedDoc, hp, hx]
    | decline w =>
      by_cases hc : w ∈ j.declinedBy <;>
        by_cases hcc : j.acceptedBy = some w ∧ j.status = JobStatus.accepted <;>
        simp [applyJobOp, declineStep, hc, hcc, hx, List.mem_append]
    | cancel =>
      simpa [applyJobOp, cancelJobDoc] using hx
    | pay =>
      by_cases ha : j.attendanceStatus = some "Present" <;>
        simp [applyJobOp, payJobDoc, ha, hx]

/-- C7, witness: in the scenario W2 is chosen and indeed absent from the
empty declinedBy of the job, and declining pJob as W1 keeps W1 in
declinedBy across a subsequent cancellation. -/
theorem c7_witness :
    scW2Nearby.name ∉ scJob.declinedBy ∧
    "W1" ∈ (applyJobOp (applyJobOp pJob (JobOp.decline "W1")) JobOp.cancel).declinedBy :=
  ⟨c7_declined_never_reoffered.1 scJob scRegistry scUsers [] scDist scW2Nearby
      scenario_offer_is_w2,
   c7_declined_never_reoffered.2 (applyJobOp pJob (JobOp.decline "W1"))
      JobOp.cancel "W1" (by decide)⟩

/-- C8: a worker holding an accepted but unpaid job is excluded from
candidate selection for any other job (the loop queries the Job store
and skips on a match), and the same query is re-run synchronously at the
start of the accept route, rejecting such a worker with the state
untouched, before the conditional transition is reached. -/
theorem c8_unpaid_worker_excluded_and_rejected :
    (∀ (job : Job) (registry : List (String × RegistryEntry))
       (users : List UserRec) (db : List Job)
       (dist : Rat → Rat → Rat → Rat → Rat) (w : NearbyWorker),
        offerTarget job registry users db dist = some w →
        findUnpaidJob db w.name = none) ∧
    (∀ (s : ServerState) (jobId w : String) (snap : Option WorkerSnapshot)
       (now tm : Nat) (u : Job),
        findUnpaidJob s.jobs w = some u →
        acceptEndpoint s jobId w snap now tm
          = (AcceptOutcome.unpaidRejected u, s)) := by
  constructor
  · intro job registry users db dist w h
    exact chooseWorker_skips_unpaid job.declinedBy users db _ w h
  · intro s jobId w snap now tm u h
    unfold acceptEndpoint
    rw [h]

/-- C8, witness: the scenario selection returns W2 who indeed has no
unpaid job in the empty store, and with unpaidJob (accepted by W2,
unpaid) in the store the accept route rejects W2 before any transition,
leaving the state unchanged. -/
theorem c8_witness :
    findUnpaidJob ([] : List Job) scW2Nearby.name = none ∧
    acceptEndpoint (mkState [unpaidJob, pJob] [] [] []) "J1" "W2" none 9 10
      = (AcceptOutcome.unpaidRejected unpaidJob, mkState [unpaidJob, pJob] [] [] []) :=
  ⟨c8_unpaid_worker_excluded_and_rejected.1 scJob scRegistry scUsers [] scDist
      scW2Nearby scenario_offer_is_w2,
   c8_unpaid_worker_excluded_and_rejected.2 (mkState [unpaidJob, pJob] [] [] [])
      "J1" "W2" none 9 10 unpaidJob (by decide)⟩

theorem nodup_map_inj {α γ : Type} {f : α → γ} {m : List α}
    (h : (m.map f).Nodup) {a b : α} (ha : a ∈ m) (hb : b ∈ m)
    (hf : f a = f b) : a = b := by
  induction m with
  | nil => cases ha
  | cons e t ih =>
    rw [List.map_cons, List.nodup_cons] at h
    rcases List.mem_cons.mp ha with rfl | ha2
    · rcases List.mem_cons.mp hb with rfl | hb2
      · rfl
      · have hm : f b ∈ t.map f := List.mem_map_of_mem f hb2
        rw [← hf] at hm
        exact absurd hm h.1
    · rcases List.mem_cons.mp hb with rfl | hb2
      · have hm : f a ∈ t.map f := List.mem_map_of_mem f ha2
        rw [hf] at hm
        exact absurd hm h.1
      · exact ih h.2 ha2 hb2

theorem length_filter_key_le_one {m : List (String × Nat)}
    (h : (m.map Prod.fst).Nodup) (q : String) :
    (m.filter (fun e => e.1 == q)).length ≤ 1 := by
  induction m with
  | nil => simp
  | cons e t ih =>
    rw [List.map_cons, List.nodup_cons] at h
    have ht : e.1 = q → t.filter (fun e2 => e2.1 == q) = [] := by
      intro he
      rw [List.filter_eq_nil_iff]
      intro x hx hpx
      have hxq : x.1 = q := beq_iff_eq.mp hpx
      have hxm : x.1 ∈ t.map Prod.fst := List.mem_map_of_mem Prod.fst hx
      rw [hxq, ← he] at hxm
      exact absurd hxm h.1
    by_cases he : e.1 = q
    · simp [List.filter_cons, he, ht he]
    · simp only [List.filter_cons, beq_iff_eq, he, if_false]
      exact ih h.2

theorem mapGet_eq_some_mem {m : List (String × Nat)} {k : String} {v : Nat}
    (h : mapGet m k = some v) : (k, v) ∈ m := by
  unfold mapGet at h
  cases hf : m.find? (fun e => e.1 == k) with
  | none => rw [hf] at h; exact Option.noConfusion h
  | some e =>
    rw [hf] at h
    injection h with h2
    have hp := List.find?_some hf
    have he1 : e.1 = k := beq_iff_eq.mp hp
    have hmem := List.mem_of_find?_eq_some hf
    have he : e = (k, v) := by
      cases e
      cases he1
      cases h2
      rfl
    rw [← he]
    exact hmem

theorem mapGet_eq_none_keys {m : List (String × Nat)} {k : String}
    (h : mapGet m k = none) : ∀ e ∈ m, e.1 ≠ k := by
  unfold mapGet at h
  cases hf : m.find? (fun e => e.1 == k) with
  | some e => rw [hf] at h; exact Option.noConfusion h
  | none =>
    intro e he
    have h2 := List.find?_eq_none.mp hf e he
    simpa using h2

theorem mapSet_absent {m : List (String × Nat)} {k : String} (v : Nat)
    (h : mapGet m k = none) : mapSet m k v = m ++ [(k, v)] := by
  unfold mapGet at h
  unfold mapSet
  cases hf : m.find? (fun e => e.1 == k) with
  | some e => rw [hf] at h; exact Option.noConfusion h
  | none => simp [hf]

theorem clearTimerPair_armed_sublist (tos ars : List (String × Nat))
    (k : String) : (clearTimerPair tos ars k).2.Sublist ars := by
  unfold clearTimerPair
  cases mapGet tos k with
  | none => exact List.Sublist.refl ars
  | some tid0 => exact List.filter_sublist ars

theorem clearTimerPair_wf (tos ars : List (String × Nat)) (k : String)
    (h : timersWF tos ars) :
    timersWF (clearTimerPair tos ars k).1 (clearTimerPair tos ars k).2 ∧
    mapGet (clearTimerPair tos ars k).1 k = none := by
  obtain ⟨heq, hkey, htid⟩ := h
  rw [heq]
  unfold clearTimerPair
  cases hget : mapGet tos k with
  | none => exact ⟨⟨rfl, hkey, htid⟩, hget⟩
  | some tid0 =>
    have hmem : (k, tid0) ∈ tos := mapGet_eq_some_mem hget
    have hfil : tos.filter (fun e => e.2 != tid0)
        = tos.filter (fun e => e.1 != k) := by
      apply List.filter_congr
      intro e he
      by_cases hek : e = (k, tid0)
      · subst hek; simp
      · have h1 : e.1 ≠ k := by
          intro hk
          exact hek (nodup_map_inj hkey he hmem (by rw [hk]))
        have h2 : e.2 ≠ tid0 := by
          intro ht
          exact hek (nodup_map_inj htid he hmem (by rw [ht]))
        have b1 : (e.1 != k) = true := bne_iff_ne.mpr h1
        have b2 : (e.2 != tid0) = true := bne_iff_ne.mpr h2
        rw [b1, b2]
    have hsubk : ((mapDelete tos k).map Prod.fst).Nodup := by
      apply List.Nodup.sublist _ hkey
      exact List.Sublist.map Prod.fst (List.filter_sublist tos)
    have hsubt : ((mapDelete tos k).map Prod.snd).Nodup := by
      apply List.Nodup.sublist _ htid
      exact List.Sublist.map Prod.snd (List.filter_sublist tos)
    refine ⟨⟨?_, hsubk, hsubt⟩, mapGet_mapDelete tos k⟩
    show List.filter (fun e => e.2 != tid0) tos = mapDelete tos k
    rw [hfil]
    rfl

/-- C9, counterexample: two rounds for the same job racing across the
awaited-read window between clear and arm refute the at-most-one-timer
invariant. Starting from a well-formed state with one armed timer
(handle 7) for J1, both rounds pass their clears, then arm handles 8
and 9: two callbacks stay scheduled for J1 while pendingJobTimeouts
holds only the later handle 9, so the single stored callback is not the
only one in flight. -/
theorem c9_raced_rounds_counterexample :
    (racedRounds [("J1", 7)] [("J1", 7)] "J1" 8 9).2
      = [("J1", 8), ("J1", 9)] ∧
    ((racedRounds [("J1", 7)] [("J1", 7)] "J1" 8 9).2.filter
      (fun e => e.1 == "J1")).length = 2 ∧
    (racedRounds [("J1", 7)] [("J1", 7)] "J1" 8 9).1 = [("J1", 9)] ∧
    ¬ timersWF (racedRounds [("J1", 7)] [("J1", 7)] "J1" 8 9).1
        (racedRounds [("J1", 7)] [("J1", 7)] "J1" 8 9).2 := by
  refine ⟨by decide, by decide, by decide, ?_⟩
  intro h
  have h2 := h.1
  revert h2
  decide

/-- C9, amended: dispatch timer discipline for rounds that do not
overlap. Starting from a well-formed timer state (scheduled callbacks
are exactly the pendingJobTimeouts entries, one per job id, handles
distinct) and a fresh handle, a dispatch round executed without
interleaving (clear previous timer, then arm a fresh one) and the clear
performed by a successful acceptance both preserve well-formedness, and
in both resulting states at most one scheduled callback exists per job
id. The unqualified per-job uniqueness claimed for every instant fails:
two rounds racing across the awaited-read window leave two scheduled
callbacks for one job (see the counterexample). -/
theorem c9_single_timer_per_job (tos ars : List (String × Nat))
    (k : String) (tid : Nat) (hwf : timersWF tos ars)
    (hfresh : ∀ e ∈ ars, e.2 ≠ tid) :
    timersWF (roundArmTimers tos ars k tid).1 (roundArmTimers tos ars k tid).2 ∧
    timersWF (clearTimerPair tos ars k).1 (clearTimerPair tos ars k).2 ∧
    (∀ q, ((roundArmTimers tos ars k tid).2.filter (fun e => e.1 == q)).length ≤ 1) ∧
    (∀ q, ((clearTimerPair tos ars k).2.filter (fun e => e.1 == q)).length ≤ 1) := by
  obtain ⟨hcwf, hcget⟩ := clearTimerPair_wf tos ars k hwf
  obtain ⟨hceq, hckey, hctid⟩ := hcwf
  have hround : timersWF (roundArmTimers tos ars k tid).1
      (roundArmTimers tos ars k tid).2 := by
    show timersWF (mapSet (clearTimerPair tos ars k).1 k tid)
      ((clearTimerPair tos ars k).2 ++ [(k, tid)])
    rw [mapSet_absent tid hcget]
    have hknot : ∀ e ∈ (clearTimerPair tos ars k).1, e.1 ≠ k :=
      mapGet_eq_none_keys hcget
    refine ⟨by rw [hceq], ?_, ?_⟩
    · rw [List.map_append]
      rw [List.nodup_append]
      refine ⟨hckey, by simp, ?_⟩
      intro x hx
      simp only [List.map_cons, List.map_nil, List.mem_singleton]
      intro hk
      subst hk
      obtain ⟨e, he, hex⟩ := List.mem_map.mp hx
      exact absurd hex (hknot e he)
    · rw [List.map_append]
      rw [List.nodup_append]
      refine ⟨hctid, by simp, ?_⟩
      intro x hx
      simp only [List.map_cons, List.map_nil, List.mem_singleton]
      intro ht
      subst ht
      obtain ⟨e, he, hex⟩ := List.mem_map.mp hx
      have he2 : e ∈ (clearTimerPair tos ars k).2 := by
        rw [hceq]
        exact he
      have hars : e ∈ ars := (clearTimerPair_armed_sublist tos ars k).subset he2
      exact absurd hex (hfresh e hars)
  refine ⟨hround, ⟨hceq, hckey, hctid⟩, ?_, ?_⟩
  · intro q
    apply length_filter_key_le_one
    rw [hround.1]
    exact hround.2.1
  · intro q
    apply length_filter_key_le_one
    rw [hceq]
    exact hckey

/-- C9, witness: the round discipline evaluated on a state holding one
armed timer (handle 7) for J1 and a fresh handle 9: well-formedness is
kept and J1 still has at most one scheduled callback. -/
theorem c9_witness :
    timersWF (roundArmTimers [("J1", 7)] [("J1", 7)] "J1" 9).1
      (roundArmTimers [("J1", 7)] [("J1", 7)] "J1" 9).2 ∧
    ((roundArmTimers [("J1", 7)] [("J1", 7)] "J1" 9).2.filter
      (fun e => e.1 == "J1")).length ≤ 1 :=
  have h := c9_single_timer_per_job [("J1", 7)] [("J1", 7)] "J1" 9
    ⟨rfl, by decide, by decide⟩ (by decide)
  ⟨h.1, h.2.2.1 "J1"⟩

/-- C10: the coordinate 0 is treated as absent. A posting request whose
lat or lon equals 0 is rejected as missing required fields before any
wallet access, so no job is created and no fee is deducted; and every
candidate emitted by findNearbyWorkers comes from an entry whose lat,
lon and name are truthy, so workers reporting a 0 coordinate or an empty
name are silently excluded from selection for every job. -/
theorem c10_zero_treated_as_absent :
    (∀ (req : PostRequest) (b : Rat) (nid : String),
        req.lat = some 0 ∨ req.lon = some 0 →
        postJob req b nid = (PostOutcome.missingFields, b)) ∧
    (∀ (dist : Rat → Rat → Rat → Rat → Rat) (la lo : Rat)
       (t : Option String) (reg : List (String × RegistryEntry))
       (n : NearbyWorker),
        n ∈ findNearbyWorkers dist la lo t reg →
        n.lat ≠ 0 ∧ n.lon ≠ 0 ∧ n.name ≠ "") := by
  constructor
  · intro req b nid h
    unfold postJob
    rw [if_pos]
    rcases h with h | h
    · refine Or.inr (Or.inl ?_)
      rw [h]
      rfl
    · refine Or.inr (Or.inr ?_)
      rw [h]
      rfl
  · intro dist la lo t reg n hn
    unfold findNearbyWorkers at hn
    have hmem := (List.perm_insertionSort
      (fun a b : NearbyWorker => a.distance ≤ b.distance) _).mem_iff.mp hn
    rw [List.mem_filterMap] at hmem
    obtain ⟨p, _, hpeq⟩ := hmem
    simp only [] at hpeq
    split_ifs at hpeq with h1 h2 h3 <;>
      first
        | exact Option.noConfusion hpeq
        | (injection hpeq with h4
           subst h4
           push_neg at h1
           exact ⟨h1.1, h1.2.1, h1.2.2⟩)

/-- C10, witness: the rejection of badReq (lat equal to 0), fee intact,
and the truthiness of the scenario candidate W2 emitted by
findNearbyWorkers. -/
theorem c10_witness :
    postJob badReq 500 "J9" = (PostOutcome.missingFields, 500) ∧
    scW2Nearby.lat ≠ 0 ∧ scW2Nearby.lon ≠ 0 ∧ scW2Nearby.name ≠ "" :=
  ⟨c10_zero_treated_as_absent.1 badReq 500 "J9" (Or.inl rfl),
   c10_zero_treated_as_absent.2 scDist scJob.lat scJob.lon scJob.workerType
     scRegistry scW2Nearby
     (by rw [scenario_nearby_list]; exact List.mem_cons_self _ _)⟩

end Kaamwale

